import Mathlib

/-!
Shallow embedding of the Connect-Four rule engine of `src/game`
(`gamemanager.py` and the difficulty table of `controller.py`).

The board is a 6×7 grid of integer cells (0 = empty, 1 = red, -1 = yellow).
Python indexes the grid with machine integers and always guards accesses by
explicit bounds checks, so cells are read through `getCell` / written through
`setCell`, which take `Int` indices and are the identity (resp. return 0)
out of bounds — exactly the situations the Python code never reaches because
it checks `0 <= r < height` first.
-/

abbrev Board := Fin 6 → Fin 7 → Int

/-- Bounds-guarded read of `board[r, c]`. -/
def getCell (b : Board) (r c : Int) : Int :=
  if h : 0 ≤ r ∧ r < 6 ∧ 0 ≤ c ∧ c < 7 then
    b ⟨r.toNat, by omega⟩ ⟨c.toNat, by omega⟩
  else 0

/-- Bounds-guarded write `board[r, c] = v`. -/
def setCell (b : Board) (r c v : Int) : Board :=
  if h : 0 ≤ r ∧ r < 6 ∧ 0 ≤ c ∧ c < 7 then
    fun r' c' => if r' = ⟨r.toNat, by omega⟩ ∧ c' = ⟨c.toNat, by omega⟩ then v else b r' c'
  else b

lemma getCell_oob (b : Board) {r c : Int} (h : ¬(0 ≤ r ∧ r < 6 ∧ 0 ≤ c ∧ c < 7)) :
    getCell b r c = 0 := by
  unfold getCell; exact dif_neg h

lemma getCell_setCell (b : Board) (r c v r' c' : Int) :
    getCell (setCell b r c v) r' c' =
      if 0 ≤ r ∧ r < 6 ∧ 0 ≤ c ∧ c < 7 ∧ r' = r ∧ c' = c then v
      else getCell b r' c' := by
  by_cases h : 0 ≤ r ∧ r < 6 ∧ 0 ≤ c ∧ c < 7
  · by_cases h' : 0 ≤ r' ∧ r' < 6 ∧ 0 ≤ c' ∧ c' < 7
    · simp only [getCell, setCell, dif_pos h, dif_pos h', Fin.mk.injEq]
      by_cases he : r' = r ∧ c' = c
      · rw [if_pos (by omega), if_pos (by tauto)]
      · rw [if_neg (by omega), if_neg (by tauto)]
    · rw [if_neg (by omega), getCell_oob _ h', getCell_oob _ h']
  · simp only [setCell, dif_neg h]
    rw [if_neg (by tauto)]

lemma getCell_setCell_same (b : Board) {r c : Int} (v : Int)
    (h : 0 ≤ r ∧ r < 6 ∧ 0 ≤ c ∧ c < 7) :
    getCell (setCell b r c v) r c = v := by
  rw [getCell_setCell, if_pos ⟨h.1, h.2.1, h.2.2.1, h.2.2.2, rfl, rfl⟩]

lemma getCell_setCell_ne (b : Board) {r c r' c' : Int} (v : Int)
    (h : ¬(r' = r ∧ c' = c)) :
    getCell (setCell b r c v) r' c' = getCell b r' c' := by
  rw [getCell_setCell, if_neg (by tauto)]

/-- Board built from a list of rows (row 0 on top), for concrete test states. -/
def boardOfRows (rows : List (List Int)) : Board :=
  fun r c => ((rows.getD r.val []).getD c.val 0)

/-- The empty 6×7 board. -/
def emptyBoard : Board := fun _ _ => 0

/--
Engine state shared by both variants: the fields of `Gestionnaire.__init__`.
`ai_engine` records whether the C++ bridge handle is present (`self.ai_engine`
is not `None`); the bridge itself is modelled as an oracle function passed to
the AI-turn entry points.
-/
structure Gestionnaire where
  board : Board
  current_player : Int
  victory : Bool
  draw : Bool
  event : Bool
  message_event : String
  mode_solo : Bool
  ai_engine : Bool
  difficulty : Int

instance : DecidableEq Gestionnaire := fun a b =>
  decidable_of_iff
    (a.board = b.board ∧ a.current_player = b.current_player ∧ a.victory = b.victory ∧
      a.draw = b.draw ∧ a.event = b.event ∧ a.message_event = b.message_event ∧
      a.mode_solo = b.mode_solo ∧ a.ai_engine = b.ai_engine ∧ a.difficulty = b.difficulty)
    (by cases a; cases b; simp)

/-- `Gestionnaire.__init__`: `bridge_ok` says whether `AIModel()` loaded
(load failure leaves `ai_engine = None`, i.e. `false` here). -/
def Gestionnaire.init (mode_solo : Bool) (difficulty : Int) (bridge_ok : Bool) : Gestionnaire :=
  { board := emptyBoard
    current_player := -1
    victory := false
    draw := false
    event := false
    message_event := ""
    mode_solo := mode_solo
    ai_engine := mode_solo && bridge_ok
    difficulty := difficulty }

def ClassicGame.init (mode_solo : Bool) (difficulty : Int) (bridge_ok : Bool) : Gestionnaire :=
  Gestionnaire.init mode_solo difficulty bridge_ok

def Variante_1.init (mode_solo : Bool) (difficulty : Int) (bridge_ok : Bool) : Gestionnaire :=
  { Gestionnaire.init mode_solo difficulty bridge_ok with
    message_event := "Vous pouvez retirer un pion de votre adversaire"
    event := false }

/-! ## Alignment detection (`Gestionnaire.check_victory`) -/

/-- The four scan directions of `check_victory`:
horizontal, vertical, diagonal "\", diagonal "/". -/
def directions : List (Int × Int) := [(0, 1), (1, 0), (1, 1), (1, -1)]

/-- One directional scan loop of `check_victory`: starting from `(r, c)`,
steps by `(dr, dc)` at most `fuel` times, counting consecutive in-bounds
cells equal to `player`; the first out-of-bounds or mismatched cell stops
the scan (`else: break`). -/
def scanDir (b : Board) (player dr dc : Int) : Int → Int → Nat → Nat
  | _, _, 0 => 0
  | r, c, n + 1 =>
    if (0 ≤ r + dr ∧ r + dr < 6 ∧ 0 ≤ c + dc ∧ c + dc < 7) ∧ getCell b (r + dr) (c + dc) = player
    then scanDir b player dr dc (r + dr) (c + dc) n + 1
    else 0

/-- `Gestionnaire.check_victory(move, player, n)`: the anchor counts once,
each direction adds the positive and the negative scans (both bounded by
`n - 1` steps, from `range(1, n)`), and any direction reaching `n` wins. -/
def check_victory (b : Board) (move : Int × Int) (player : Int) (n : Nat) : Bool :=
  directions.any fun d =>
    decide (n ≤ 1 + scanDir b player d.1 d.2 move.1 move.2 (n - 1)
                  + scanDir b player (-d.1) (-d.2) move.1 move.2 (n - 1))

/-- `np.all(self.board != 0)`. -/
def boardFull (b : Board) : Bool :=
  decide (∀ (r : Fin 6) (c : Fin 7), b r c ≠ 0)

example : check_victory (boardOfRows [[], [], [0, 1], [0, 1], [0, 1], [0, 1]]) (2, 1) 1 4 = true := by decide

example : check_victory (boardOfRows [[], [], [], [0, 1], [0, 1], [0, 1]]) (3, 1) 1 4 = false := by decide

/-! ## Column drop (`play`, normal phase) -/

/-- The row scan order of the gravity loop: `range(height - 1, -1, -1)`. -/
def rowsDesc : List Int := [5, 4, 3, 2, 1, 0]

/-- The gravity loop of `play`: scan rows bottom-up, write the current
player's value into the first empty cell of `col` and remember its row
(`r_found`); if no row is empty the board is untouched and `r_found = -1`. -/
def dropLoop (b : Board) (col player : Int) : List Int → Board × Int
  | [] => (b, -1)
  | r :: rs =>
    if getCell b r col = 0 then (setCell b r col player, r)
    else dropLoop b col player rs

/-- `ClassicGame.play`: validate the column, apply gravity, then check
victory, then draw, else flip the player. -/
def ClassicGame.play (s : Gestionnaire) (move : Int × Int) : Except String Gestionnaire :=
  if move.2 < 0 ∨ 7 ≤ move.2 ∨ getCell s.board 0 move.2 ≠ 0 then
    Except.error "Colonne pleine ou invalide."
  else
    let dropped := dropLoop s.board move.2 s.current_player rowsDesc
    if check_victory dropped.1 (dropped.2, move.2) s.current_player 4 then
      Except.ok { s with board := dropped.1, victory := true }
    else if boardFull dropped.1 then
      Except.ok { s with board := dropped.1, draw := true }
    else
      Except.ok { s with board := dropped.1, current_player := s.current_player * (-1) }

/-! ## Removal and collapse (`Variante_1.play`, event phase) -/

/-- `-1 if self.current_player == 1 else 1`. -/
def otherPlayer (cur : Int) : Int := if cur = 1 then -1 else 1

/-- The list `[m, m-1, ..., 1]` as integers: the index sequence of
`range(row, 0, -1)`. -/
def rangeDescTo1 : Nat → List Int
  | 0 => []
  | m + 1 => ((m : Int) + 1) :: rangeDescTo1 m

/-- The collapse loop: `for r in range(row, 0, -1): board[r,col] = board[r-1,col]`. -/
def collapseLoop (b : Board) (col : Int) : List Int → Board
  | [] => b
  | r :: rs => collapseLoop (setCell b r col (getCell b (r - 1) col)) col rs

/-- Clearing the target cell, shifting the column down, and emptying the top
cell (`self._board[row, col] = 0`, the collapse loop, `self._board[0, col] = 0`). -/
def remove_and_collapse (b : Board) (row col : Int) : Board :=
  setCell (collapseLoop (setCell b row col 0) col (rangeDescTo1 row.toNat)) 0 col 0

/-- Row scan order of the post-collapse victory rescan: `range(self.height)`. -/
def rowsAsc : List Int := [0, 1, 2, 3, 4, 5]

/-- The post-collapse rescan of the affected column: accumulates
`(victoire_moi, victoire_autre)` over the rows of `col`. -/
def scanWins (b : Board) (col cur : Int) : Bool × Bool :=
  rowsAsc.foldl
    (fun acc r =>
      let pion := getCell b r col
      if pion ≠ 0 ∧ check_victory b (r, col) pion 4 = true then
        if pion = cur then (true, acc.2) else (acc.1, true)
      else acc)
    (false, false)

/-- `Variante_1.play`: a column drop in the normal phase (with the 4-run /
3-run / draw / flip priority chain), or a removal in the event phase. -/
def Variante_1.play (s : Gestionnaire) (move : Int × Int) : Except String Gestionnaire :=
  if s.event = false then
    if move.2 < 0 ∨ 7 ≤ move.2 ∨ getCell s.board 0 move.2 ≠ 0 then
      Except.error "Colonne pleine ou invalide."
    else
      let dropped := dropLoop s.board move.2 s.current_player rowsDesc
      if check_victory dropped.1 (dropped.2, move.2) s.current_player 4 then
        Except.ok { s with board := dropped.1, victory := true }
      else if check_victory dropped.1 (dropped.2, move.2) s.current_player 3 then
        Except.ok { s with board := dropped.1, event := true }
      else if boardFull dropped.1 then
        Except.ok { s with board := dropped.1, draw := true }
      else
        Except.ok { s with board := dropped.1, current_player := s.current_player * (-1) }
  else
    let other := otherPlayer s.current_player
    if move.1 < 0 ∨ 6 ≤ move.1 ∨ move.2 < 0 ∨ 7 ≤ move.2 ∨ getCell s.board move.1 move.2 ≠ other then
      Except.error "Vous devez cliquer sur un pion adverse !"
    else
      let b2 := remove_and_collapse s.board move.1 move.2
      let wins := scanWins b2 move.2 s.current_player
      if wins.1 = true ∧ wins.2 = true then
        Except.ok { s with board := b2, draw := true, event := false }
      else if wins.1 = true then
        Except.ok { s with board := b2, victory := true, event := false }
      else if wins.2 = true then
        Except.ok { s with board := b2, victory := true, current_player := other, event := false }
      else
        Except.ok { s with board := b2, current_player := s.current_player * (-1), event := false }

/-! ## AI delegation -/

/-- `self.board.flatten()`: row-major serialization of the 42 cells. -/
def flattenBoard (b : Board) : List Int :=
  (List.finRange 6).flatMap fun r => (List.finRange 7).map fun c => b r c

/-- The external search engine (`AIModel.get_best_move`), as an oracle taking
the flattened board, the depth and the mode code, and answering a column. -/
abbrev AIBridge := List Int → Int → Int → Int

/-- `ClassicGame.play_ai_turn`: no-op unless solo mode is on, the bridge
loaded, and it is player 1's turn; otherwise serialize the board, ask the
bridge with mode 0, and feed the answer through `play` (whose `InvalidMove`
propagates to the caller). -/
def ClassicGame.play_ai_turn (bridge : AIBridge) (s : Gestionnaire) : Except String Gestionnaire :=
  if ¬s.mode_solo ∨ ¬s.ai_engine then Except.ok s
  else if s.current_player ≠ 1 then Except.ok s
  else ClassicGame.play s (0, bridge (flattenBoard s.board) s.difficulty 0)

/-- Inner loop of `get_best_victim`: scan rows of `col` bottom-to-top. -/
def findInCol (b : Board) (col opp : Int) : List Int → Option (Int × Int)
  | [] => none
  | r :: rs => if getCell b r col = opp then some (r, col) else findInCol b col opp rs

/-- Column priority order of `get_best_victim`. -/
def priority_cols : List Int := [3, 2, 4, 1, 5, 0, 6]

/-- Outer loop of `get_best_victim` over the priority columns. -/
def victimScan (b : Board) (opp : Int) : List Int → Option (Int × Int)
  | [] => none
  | col :: cs =>
    match findInCol b col opp rowsDesc with
    | some rc => some rc
    | none => victimScan b opp cs

/-- `Variante_1.get_best_victim`: first opponent piece in priority-column,
bottom-to-top order; `none` when no opponent piece exists. -/
def Variante_1.get_best_victim (b : Board) (opp : Int) : Option (Int × Int) :=
  victimScan b opp priority_cols

/-- `Variante_1.play_ai_turn`: guard, drop via the bridge (mode 1) with
`InvalidMove` caught, then if the drop opened the event, remove the best
victim (or clear the event and pass if none exists). -/
def Variante_1.play_ai_turn (bridge : AIBridge) (s : Gestionnaire) : Except String Gestionnaire :=
  if ¬s.mode_solo ∨ ¬s.ai_engine ∨ s.current_player ≠ 1 then Except.ok s
  else
    match Variante_1.play s (0, bridge (flattenBoard s.board) s.difficulty 1) with
    | Except.error _ => Except.ok s
    | Except.ok s1 =>
      if s1.event then
        match Variante_1.get_best_victim s1.board (-1) with
        | some target => Variante_1.play s1 target
        | none => Except.ok { s1 with event := false, current_player := s1.current_player * (-1) }
      else Except.ok s1

/-! ## Controller-side difficulty table (`Controller.menu_principal`) -/

/-- `niveaux = [2, 4, 6]`. -/
def niveaux : List Int := [2, 4, 6]

/-- `difficulty = niveaux[choix_diff]` for a menu choice in {0, 1, 2}
(0 = Facile/Easy, 1 = Moyen/Medium, 2 = Difficile/Hard). -/
def difficulty_for (choix : Fin 3) : Int := niveaux.get (Fin.cast rfl choix)

/-- The caller-side view of a `play` call: on `InvalidMove` the caller keeps
the unchanged engine state (`except InvalidMove: pass`). -/
def applyCaught (play : Gestionnaire → Int × Int → Except String Gestionnaire)
    (s : Gestionnaire) (move : Int × Int) : Gestionnaire :=
  match play s move with
  | Except.ok s' => s'
  | Except.error _ => s

/-! ## Characterization of the gravity drop -/

lemma dropLoop_spec (b : Board) (col player : Int) (h0 : getCell b 0 col = 0) :
    ∃ rs : Int, dropLoop b col player rowsDesc = (setCell b rs col player, rs) ∧
      0 ≤ rs ∧ rs < 6 ∧ getCell b rs col = 0 ∧
      ∀ r : Int, rs < r → r < 6 → getCell b r col ≠ 0 := by
  simp only [rowsDesc, dropLoop]
  by_cases h5 : getCell b 5 col = 0
  · exact ⟨5, by rw [if_pos h5], by norm_num, by norm_num, h5, by intro r h1 h2; omega⟩
  · rw [if_neg h5]
    by_cases h4 : getCell b 4 col = 0
    · refine ⟨4, by rw [if_pos h4], by norm_num, by norm_num, h4, ?_⟩
      intro r h1 h2; interval_cases r ; all_goals assumption
    · rw [if_neg h4]
      by_cases h3 : getCell b 3 col = 0
      · refine ⟨3, by rw [if_pos h3], by norm_num, by norm_num, h3, ?_⟩
        intro r h1 h2; interval_cases r ; all_goals assumption
      · rw [if_neg h3]
        by_cases h2 : getCell b 2 col = 0
        · refine ⟨2, by rw [if_pos h2], by norm_num, by norm_num, h2, ?_⟩
          intro r h1' h2'; interval_cases r ; all_goals assumption
        · rw [if_neg h2]
          by_cases h1 : getCell b 1 col = 0
          · refine ⟨1, by rw [if_pos h1], by norm_num, by norm_num, h1, ?_⟩
            intro r h1' h2'; interval_cases r ; all_goals assumption
          · rw [if_neg h1, if_pos h0]
            refine ⟨0, rfl, le_refl 0, by norm_num, h0, ?_⟩
            intro r h1' h2'; interval_cases r ; all_goals assumption

/-- C3: In the classic variant, an accepted drop in column `col` fills the
lowest empty row `rs` of that column with the current player's piece,
changes no other cell, and then: a completed 4-run sets Victory with no
player flip; otherwise a full board sets Draw; otherwise the player flips. -/
theorem classic_play_spec (s : Gestionnaire) (x col : Int)
    (hcol : 0 ≤ col ∧ col < 7) (htop : getCell s.board 0 col = 0) :
    ∃ (rs : Int) (s' : Gestionnaire), ClassicGame.play s (x, col) = Except.ok s' ∧
      0 ≤ rs ∧ rs < 6 ∧
      getCell s.board rs col = 0 ∧
      (∀ r : Int, rs < r → r < 6 → getCell s.board r col ≠ 0) ∧
      getCell s'.board rs col = s.current_player ∧
      (∀ r c : Int, ¬(r = rs ∧ c = col) → getCell s'.board r c = getCell s.board r c) ∧
      (check_victory s'.board (rs, col) s.current_player 4 = true →
        s'.victory = true ∧ s'.current_player = s.current_player ∧ s'.draw = s.draw) ∧
      (check_victory s'.board (rs, col) s.current_player 4 = false →
        boardFull s'.board = true →
        s'.draw = true ∧ s'.current_player = s.current_player ∧ s'.victory = s.victory) ∧
      (check_victory s'.board (rs, col) s.current_player 4 = false →
        boardFull s'.board = false →
        s'.current_player = s.current_player * (-1) ∧ s'.victory = s.victory ∧
          s'.draw = s.draw ∧ s'.event = s.event) := by
  obtain ⟨rs, heq, hrs0, hrs6, hempty, hbelow⟩ := dropLoop_spec s.board col s.current_player htop
  have hvalid : ¬((x, col).2 < 0 ∨ 7 ≤ (x, col).2 ∨ getCell s.board 0 (x, col).2 ≠ 0) := by
    push_neg; exact ⟨hcol.1, hcol.2, htop⟩
  refine ⟨rs, ?_⟩
  unfold ClassicGame.play
  rw [if_neg hvalid]
  simp only [heq]
  have hset : getCell (setCell s.board rs col s.current_player) rs col = s.current_player :=
    getCell_setCell_same _ _ ⟨hrs0, hrs6, hcol.1, hcol.2⟩
  have hother : ∀ r c : Int, ¬(r = rs ∧ c = col) →
      getCell (setCell s.board rs col s.current_player) r c = getCell s.board r c := by
    intro r c hne; exact getCell_setCell_ne _ _ hne
  by_cases hv : check_victory (setCell s.board rs col s.current_player) (rs, col) s.current_player 4 = true
  · rw [if_pos hv]
    refine ⟨_, rfl, hrs0, hrs6, hempty, hbelow, hset, hother, fun _ => ⟨rfl, rfl, rfl⟩, ?_, ?_⟩
    · intro hnv _; rw [hv] at hnv; cases hnv
    · intro hnv _; rw [hv] at hnv; cases hnv
  · rw [if_neg hv]
    by_cases hf : boardFull (setCell s.board rs col s.current_player) = true
    · rw [if_pos hf]
      refine ⟨_, rfl, hrs0, hrs6, hempty, hbelow, hset, hother, ?_,
        fun _ _ => ⟨rfl, rfl, rfl⟩, ?_⟩
      · intro hvv; exact absurd hvv hv
      · intro _ hnf; rw [hf] at hnf; cases hnf
    · rw [if_neg hf]
      refine ⟨_, rfl, hrs0, hrs6, hempty, hbelow, hset, hother, ?_, ?_,
        fun _ _ => ⟨rfl, rfl, rfl, rfl⟩⟩
      · intro hvv; exact absurd hvv hv
      · intro _ hff; exact absurd hff hf

/-- Witness for `classic_play_spec`: a drop in column 3 of the empty board. -/
theorem classic_play_spec_witness :
    ∃ (rs : Int) (s' : Gestionnaire),
      ClassicGame.play (ClassicGame.init false 4 false) (0, 3) = Except.ok s' ∧
      0 ≤ rs ∧ rs < 6 ∧
      getCell (ClassicGame.init false 4 false).board rs 3 = 0 ∧
      (∀ r : Int, rs < r → r < 6 → getCell (ClassicGame.init false 4 false).board r 3 ≠ 0) ∧
      getCell s'.board rs 3 = (ClassicGame.init false 4 false).current_player ∧
      (∀ r c : Int, ¬(r = rs ∧ c = 3) →
        getCell s'.board r c = getCell (ClassicGame.init false 4 false).board r c) ∧
      (check_victory s'.board (rs, 3) (ClassicGame.init false 4 false).current_player 4 = true →
        s'.victory = true ∧ s'.current_player = (ClassicGame.init false 4 false).current_player ∧
          s'.draw = (ClassicGame.init false 4 false).draw) ∧
      (check_victory s'.board (rs, 3) (ClassicGame.init false 4 false).current_player 4 = false →
        boardFull s'.board = true →
        s'.draw = true ∧ s'.current_player = (ClassicGame.init false 4 false).current_player ∧
          s'.victory = (ClassicGame.init false 4 false).victory) ∧
      (check_victory s'.board (rs, 3) (ClassicGame.init false 4 false).current_player 4 = false →
        boardFull s'.board = false →
        s'.current_player = (ClassicGame.init false 4 false).current_player * (-1) ∧
          s'.victory = (ClassicGame.init false 4 false).victory ∧
          s'.draw = (ClassicGame.init false 4 false).draw ∧
          s'.event = (ClassicGame.init false 4 false).event) :=
  classic_play_spec (ClassicGame.init false 4 false) 0 3 (by decide) (by decide)

/-- C2: In the removal variant's normal phase an accepted drop applies, in
priority order: a completed 4-run sets Victory with no flip; else a
completed 3-run sets the event flag with no flip; else a full board sets
Draw; else the player flips and the state stays Normal. -/
theorem variante_normal_phase_spec (s : Gestionnaire) (x col : Int)
    (hev : s.event = false)
    (hcol : 0 ≤ col ∧ col < 7) (htop : getCell s.board 0 col = 0) :
    ∃ s' : Gestionnaire, Variante_1.play s (x, col) = Except.ok s' ∧
      s'.board = (dropLoop s.board col s.current_player rowsDesc).1 ∧
      (check_victory s'.board ((dropLoop s.board col s.current_player rowsDesc).2, col)
          s.current_player 4 = true →
        s'.victory = true ∧ s'.current_player = s.current_player ∧ s'.event = false) ∧
      (check_victory s'.board ((dropLoop s.board col s.current_player rowsDesc).2, col)
          s.current_player 4 = false →
       check_victory s'.board ((dropLoop s.board col s.current_player rowsDesc).2, col)
          s.current_player 3 = true →
        s'.event = true ∧ s'.current_player = s.current_player ∧ s'.victory = s.victory ∧
          s'.draw = s.draw) ∧
      (check_victory s'.board ((dropLoop s.board col s.current_player rowsDesc).2, col)
          s.current_player 4 = false →
       check_victory s'.board ((dropLoop s.board col s.current_player rowsDesc).2, col)
          s.current_player 3 = false →
       boardFull s'.board = true →
        s'.draw = true ∧ s'.current_player = s.current_player ∧ s'.event = false) ∧
      (check_victory s'.board ((dropLoop s.board col s.current_player rowsDesc).2, col)
          s.current_player 4 = false →
       check_victory s'.board ((dropLoop s.board col s.current_player rowsDesc).2, col)
          s.current_player 3 = false →
       boardFull s'.board = false →
        s'.current_player = s.current_player * (-1) ∧ s'.event = false ∧
          s'.victory = s.victory ∧ s'.draw = s.draw) := by
  have hvalid : ¬((x, col).2 < 0 ∨ 7 ≤ (x, col).2 ∨ getCell s.board 0 (x, col).2 ≠ 0) := by
    push_neg; exact ⟨hcol.1, hcol.2, htop⟩
  unfold Variante_1.play
  rw [if_pos hev, if_neg hvalid]
  set d := dropLoop s.board col s.current_player rowsDesc with hd
  by_cases h4 : check_victory d.1 (d.2, col) s.current_player 4 = true
  · rw [if_pos h4]
    refine ⟨_, rfl, rfl, fun _ => ⟨rfl, rfl, hev⟩, ?_, ?_, ?_⟩
    · intro hnv _; rw [h4] at hnv; cases hnv
    · intro hnv _ _; rw [h4] at hnv; cases hnv
    · intro hnv _ _; rw [h4] at hnv; cases hnv
  · rw [if_neg h4]
    by_cases h3 : check_victory d.1 (d.2, col) s.current_player 3 = true
    · rw [if_pos h3]
      refine ⟨_, rfl, rfl, ?_, fun _ _ => ⟨rfl, rfl, rfl, rfl⟩, ?_, ?_⟩
      · intro hvv; exact absurd hvv h4
      · intro _ hn3 _; rw [h3] at hn3; cases hn3
      · intro _ hn3 _; rw [h3] at hn3; cases hn3
    · rw [if_neg h3]
      by_cases hf : boardFull d.1 = true
      · rw [if_pos hf]
        refine ⟨_, rfl, rfl, ?_, ?_, fun _ _ _ => ⟨rfl, rfl, hev⟩, ?_⟩
        · intro hvv; exact absurd hvv h4
        · intro _ h3' ; exact absurd h3' h3
        · intro _ _ hnf; rw [hf] at hnf; cases hnf
      · rw [if_neg hf]
        refine ⟨_, rfl, rfl, ?_, ?_, ?_, fun _ _ _ => ⟨rfl, hev, rfl, rfl⟩⟩
        · intro hvv; exact absurd hvv h4
        · intro _ h3'; exact absurd h3' h3
        · intro _ _ hff; exact absurd hff hf

/-- Witness for `variante_normal_phase_spec`: a drop in column 2 of a board
where player -1 already has two aligned pieces, triggering the 3-run event. -/
theorem variante_normal_phase_spec_witness :
    ∃ s' : Gestionnaire,
      Variante_1.play
        { Variante_1.init false 4 false with
          board := boardOfRows [[], [], [], [], [], [-1, -1]] } (0, 2) = Except.ok s' ∧
      s'.board = (dropLoop (boardOfRows [[], [], [], [], [], [-1, -1]]) 2 (-1) rowsDesc).1 ∧
      (check_victory s'.board ((dropLoop (boardOfRows [[], [], [], [], [], [-1, -1]]) 2 (-1) rowsDesc).2, 2)
          (-1) 4 = true →
        s'.victory = true ∧ s'.current_player = -1 ∧ s'.event = false) ∧
      (check_victory s'.board ((dropLoop (boardOfRows [[], [], [], [], [], [-1, -1]]) 2 (-1) rowsDesc).2, 2)
          (-1) 4 = false →
       check_victory s'.board ((dropLoop (boardOfRows [[], [], [], [], [], [-1, -1]]) 2 (-1) rowsDesc).2, 2)
          (-1) 3 = true →
        s'.event = true ∧ s'.current_player = -1 ∧ s'.victory = false ∧ s'.draw = false) ∧
      (check_victory s'.board ((dropLoop (boardOfRows [[], [], [], [], [], [-1, -1]]) 2 (-1) rowsDesc).2, 2)
          (-1) 4 = false →
       check_victory s'.board ((dropLoop (boardOfRows [[], [], [], [], [], [-1, -1]]) 2 (-1) rowsDesc).2, 2)
          (-1) 3 = false →
       boardFull s'.board = true →
        s'.draw = true ∧ s'.current_player = -1 ∧ s'.event = false) ∧
      (check_victory s'.board ((dropLoop (boardOfRows [[], [], [], [], [], [-1, -1]]) 2 (-1) rowsDesc).2, 2)
          (-1) 4 = false →
       check_victory s'.board ((dropLoop (boardOfRows [[], [], [], [], [], [-1, -1]]) 2 (-1) rowsDesc).2, 2)
          (-1) 3 = false →
       boardFull s'.board = false →
        s'.current_player = (-1) * (-1) ∧ s'.event = false ∧ s'.victory = false ∧ s'.draw = false) :=
  variante_normal_phase_spec
    { Variante_1.init false 4 false with board := boardOfRows [[], [], [], [], [], [-1, -1]] }
    0 2 rfl (by decide) (by decide)

/-! ## Characterization of remove-and-collapse -/

lemma collapseLoop_getCell (col : Int) (hcol : 0 ≤ col ∧ col < 7) :
    ∀ (m : Nat) (b : Board), m ≤ 5 → ∀ (r c : Int),
      getCell (collapseLoop b col (rangeDescTo1 m)) r c =
        if c = col ∧ 1 ≤ r ∧ r ≤ (m : Int) then getCell b (r - 1) c else getCell b r c := by
  intro m
  induction m with
  | zero =>
    intro b _ r c
    simp only [rangeDescTo1, collapseLoop, Nat.cast_zero]
    rw [if_neg (by omega)]
  | succ m ih =>
    intro b hm r c
    simp only [rangeDescTo1, collapseLoop]
    rw [ih _ (by omega) r c]
    have hb : (0 : Int) ≤ (m : Int) + 1 ∧ ((m : Int) + 1) < 6 ∧ 0 ≤ col ∧ col < 7 := by
      refine ⟨by omega, by omega, hcol.1, hcol.2⟩
    by_cases hc : c = col
    · by_cases h1 : 1 ≤ r ∧ r ≤ (m : Int)
      · rw [if_pos ⟨hc, h1.1, h1.2⟩, if_pos ⟨hc, h1.1, by push_cast; omega⟩,
          getCell_setCell_ne _ _ (by omega)]
      · by_cases h2 : 1 ≤ r ∧ r ≤ (m : Int) + 1
        · have hr : r = (m : Int) + 1 := by omega
          rw [if_neg (by omega), if_pos ⟨hc, h2.1, by push_cast; omega⟩, hr, hc,
            getCell_setCell_same _ _ hb]
        · rw [if_neg (by omega), if_neg (by push_cast; omega),
            getCell_setCell_ne _ _ (by omega)]
    · rw [if_neg (by omega), if_neg (by push_cast; omega), getCell_setCell_ne _ _ (by omega)]

lemma remove_and_collapse_getCell (b : Board) (row col : Int)
    (hrow : 0 ≤ row ∧ row < 6) (hcol : 0 ≤ col ∧ col < 7) (r c : Int) :
    getCell (remove_and_collapse b row col) r c =
      if c = col then
        if r = 0 then 0
        else if r ≤ row then getCell b (r - 1) c
        else getCell b r c
      else getCell b r c := by
  unfold remove_and_collapse
  rw [getCell_setCell]
  by_cases hz : r = 0 ∧ c = col
  · rw [if_pos ⟨by norm_num, by norm_num, hcol.1, hcol.2, hz.1, hz.2⟩, if_pos hz.2, if_pos hz.1]
  · rw [if_neg (by tauto), collapseLoop_getCell col hcol row.toNat _ (by omega) r c]
    have hcast : ((row.toNat : Int)) = row := by omega
    rw [hcast]
    by_cases hc : c = col
    · by_cases h1 : 1 ≤ r ∧ r ≤ row
      · rw [if_pos ⟨hc, h1.1, h1.2⟩, if_pos hc, if_neg (by omega), if_pos h1.2,
          getCell_setCell_ne _ _ (by omega)]
      · rw [if_neg (by omega), if_pos hc]
        by_cases hr0 : r = 0
        · exact absurd ⟨hr0, hc⟩ hz
        · rw [if_neg hr0]
          by_cases hrr : r ≤ row
          · rw [if_pos hrr, getCell_oob _ (by omega), getCell_oob _ (by omega)]
          · rw [if_neg hrr, getCell_setCell_ne _ _ (by omega)]
    · rw [if_neg (by omega), if_neg hc, getCell_setCell_ne _ _ (by omega)]

/-- C1: In the removal variant's event sub-phase, an accepted removal
replaces the board by the remove-and-collapse of the target column (target
cell cleared, cells above shifted down one, top cell emptied), rescans that
column, and resolves: both players aligned → Draw; only the actor → Victory
with no flip; only the opponent → Victory with the current player reassigned
to the opponent; neither → flip; and the event flag is cleared in every case. -/
theorem variante_event_resolution_spec (s : Gestionnaire) (row col : Int)
    (hev : s.event = true)
    (hrow : 0 ≤ row ∧ row < 6) (hcol : 0 ≤ col ∧ col < 7)
    (htar : getCell s.board row col = otherPlayer s.current_player) :
    ∃ s' : Gestionnaire, Variante_1.play s (row, col) = Except.ok s' ∧
      s'.board = remove_and_collapse s.board row col ∧
      getCell s'.board 0 col = 0 ∧
      (∀ r : Int, 1 ≤ r → r ≤ row → getCell s'.board r col = getCell s.board (r - 1) col) ∧
      (∀ r : Int, row < r → getCell s'.board r col = getCell s.board r col) ∧
      (∀ r c : Int, c ≠ col → getCell s'.board r c = getCell s.board r c) ∧
      s'.event = false ∧
      ((scanWins s'.board col s.current_player).1 = true ∧
       (scanWins s'.board col s.current_player).2 = true →
        s'.draw = true ∧ s'.victory = s.victory ∧ s'.current_player = s.current_player) ∧
      ((scanWins s'.board col s.current_player).1 = true ∧
       (scanWins s'.board col s.current_player).2 = false →
        s'.victory = true ∧ s'.current_player = s.current_player ∧ s'.draw = s.draw) ∧
      ((scanWins s'.board col s.current_player).1 = false ∧
       (scanWins s'.board col s.current_player).2 = true →
        s'.victory = true ∧ s'.current_player = otherPlayer s.current_player ∧
          s'.draw = s.draw) ∧
      ((scanWins s'.board col s.current_player).1 = false ∧
       (scanWins s'.board col s.current_player).2 = false →
        s'.current_player = s.current_player * (-1) ∧ s'.victory = s.victory ∧
          s'.draw = s.draw) := by
  unfold Variante_1.play
  rw [if_neg (by rw [hev]; exact fun h => by cases h)]
  have hvalid : ¬((row, col).1 < 0 ∨ 6 ≤ (row, col).1 ∨ (row, col).2 < 0 ∨ 7 ≤ (row, col).2 ∨
      getCell s.board (row, col).1 (row, col).2 ≠ otherPlayer s.current_player) := by
    push_neg; exact ⟨hrow.1, hrow.2, hcol.1, hcol.2, htar⟩
  rw [if_neg hvalid]
  dsimp only
  have hboard := remove_and_collapse_getCell s.board row col hrow hcol
  have hz : getCell (remove_and_collapse s.board row col) 0 col = 0 := by
    rw [hboard 0 col, if_pos rfl, if_pos rfl]
  have hshift : ∀ r : Int, 1 ≤ r → r ≤ row →
      getCell (remove_and_collapse s.board row col) r col = getCell s.board (r - 1) col := by
    intro r h1 h2
    rw [hboard r col, if_pos rfl, if_neg (by omega), if_pos h2]
  have habove : ∀ r : Int, row < r →
      getCell (remove_and_collapse s.board row col) r col = getCell s.board r col := by
    intro r h1
    rw [hboard r col, if_pos rfl, if_neg (by omega), if_neg (by omega)]
  have hcols : ∀ r c : Int, c ≠ col →
      getCell (remove_and_collapse s.board row col) r c = getCell s.board r c := by
    intro r c hne
    rw [hboard r c, if_neg hne]
  set w := scanWins (remove_and_collapse s.board row col) col s.current_player with hw
  by_cases h1 : w.1 = true
  · by_cases h2 : w.2 = true
    · rw [if_pos ⟨h1, h2⟩]
      refine ⟨_, rfl, rfl, hz, hshift, habove, hcols, rfl,
        fun _ => ⟨rfl, rfl, rfl⟩, ?_, ?_, ?_⟩
      · intro h; rw [h2] at h; cases h.2
      · intro h; rw [h1] at h; cases h.1
      · intro h; rw [h1] at h; cases h.1
    · rw [if_neg (fun h => h2 h.2), if_pos h1]
      refine ⟨_, rfl, rfl, hz, hshift, habove, hcols, rfl, ?_,
        fun _ => ⟨rfl, rfl, rfl⟩, ?_, ?_⟩
      · intro h; exact absurd h.2 h2
      · intro h; rw [h1] at h; cases h.1
      · intro h; rw [h1] at h; cases h.1
  · by_cases h2 : w.2 = true
    · rw [if_neg (fun h => h1 h.1), if_neg h1, if_pos h2]
      refine ⟨_, rfl, rfl, hz, hshift, habove, hcols, rfl, ?_, ?_,
        fun _ => ⟨rfl, rfl, rfl⟩, ?_⟩
      · intro h; exact absurd h.1 h1
      · intro h; exact absurd h.1 h1
      · intro h; rw [h2] at h; cases h.2
    · rw [if_neg (fun h => h1 h.1), if_neg h1, if_neg h2]
      refine ⟨_, rfl, rfl, hz, hshift, habove, hcols, rfl, ?_, ?_, ?_,
        fun _ => ⟨rfl, rfl, rfl⟩⟩
      · intro h; exact absurd h.1 h1
      · intro h; exact absurd h.1 h1
      · intro h; exact absurd h.2 h2

/-- Concrete event-phase state for the `variante_event_resolution_spec`
witness: player -1 must remove one of player 1's pieces. -/
def c1WitnessState : Gestionnaire :=
  { Variante_1.init false 4 false with
    event := true
    current_player := -1
    board := boardOfRows [[], [], [], [], [1], [1, -1]] }

/-- Witness for `variante_event_resolution_spec`: removing the piece at
`(5, 0)` from `c1WitnessState`. -/
theorem variante_event_resolution_spec_witness :
    ∃ s' : Gestionnaire, Variante_1.play c1WitnessState (5, 0) = Except.ok s' ∧
      s'.board = remove_and_collapse c1WitnessState.board 5 0 ∧
      getCell s'.board 0 0 = 0 ∧
      (∀ r : Int, 1 ≤ r → r ≤ 5 → getCell s'.board r 0 = getCell c1WitnessState.board (r - 1) 0) ∧
      (∀ r : Int, (5 : Int) < r → getCell s'.board r 0 = getCell c1WitnessState.board r 0) ∧
      (∀ r c : Int, c ≠ 0 → getCell s'.board r c = getCell c1WitnessState.board r c) ∧
      s'.event = false ∧
      ((scanWins s'.board 0 c1WitnessState.current_player).1 = true ∧
       (scanWins s'.board 0 c1WitnessState.current_player).2 = true →
        s'.draw = true ∧ s'.victory = c1WitnessState.victory ∧
          s'.current_player = c1WitnessState.current_player) ∧
      ((scanWins s'.board 0 c1WitnessState.current_player).1 = true ∧
       (scanWins s'.board 0 c1WitnessState.current_player).2 = false →
        s'.victory = true ∧ s'.current_player = c1WitnessState.current_player ∧
          s'.draw = c1WitnessState.draw) ∧
      ((scanWins s'.board 0 c1WitnessState.current_player).1 = false ∧
       (scanWins s'.board 0 c1WitnessState.current_player).2 = true →
        s'.victory = true ∧ s'.current_player = otherPlayer c1WitnessState.current_player ∧
          s'.draw = c1WitnessState.draw) ∧
      ((scanWins s'.board 0 c1WitnessState.current_player).1 = false ∧
       (scanWins s'.board 0 c1WitnessState.current_player).2 = false →
        s'.current_player = c1WitnessState.current_player * (-1) ∧
          s'.victory = c1WitnessState.victory ∧ s'.draw = c1WitnessState.draw) :=
  variante_event_resolution_spec c1WitnessState 5 0 rfl (by decide) (by decide) (by decide)

/-! ## Characterization of the alignment scan -/

/-- The cell `i` steps from the anchor `(r, c)` along `(dr, dc)` is in
bounds and holds `player`'s piece. -/
def matchAt (b : Board) (player r c dr dc : Int) (i : Nat) : Prop :=
  (0 ≤ r + dr * i ∧ r + dr * i < 6 ∧ 0 ≤ c + dc * i ∧ c + dc * i < 7) ∧
  getCell b (r + dr * i) (c + dc * i) = player

lemma matchAt_one (b : Board) (player r c dr dc : Int) :
    matchAt b player r c dr dc 1 ↔
      (0 ≤ r + dr ∧ r + dr < 6 ∧ 0 ≤ c + dc ∧ c + dc < 7) ∧
        getCell b (r + dr) (c + dc) = player := by
  have hr : r + dr * ((1 : Nat) : Int) = r + dr := by push_cast; ring
  have hc : c + dc * ((1 : Nat) : Int) = c + dc := by push_cast; ring
  unfold matchAt
  rw [hr, hc]

lemma matchAt_succ (b : Board) (player r c dr dc : Int) (i : Nat) :
    matchAt b player r c dr dc (i + 1) ↔ matchAt b player (r + dr) (c + dc) dr dc i := by
  have hr : r + dr * ((i + 1 : Nat) : Int) = (r + dr) + dr * (i : Int) := by push_cast; ring
  have hc : c + dc * ((i + 1 : Nat) : Int) = (c + dc) + dc * (i : Int) := by push_cast; ring
  unfold matchAt
  rw [hr, hc]

lemma scanDir_le (b : Board) (player dr dc : Int) :
    ∀ (fuel : Nat) (r c : Int), scanDir b player dr dc r c fuel ≤ fuel := by
  intro fuel
  induction fuel with
  | zero => intro r c; simp [scanDir]
  | succ n ih =>
    intro r c
    simp only [scanDir]
    split
    · exact Nat.succ_le_succ (ih _ _)
    · exact Nat.zero_le _

lemma le_scanDir_iff (b : Board) (player dr dc : Int) :
    ∀ (fuel k : Nat) (r c : Int), k ≤ fuel →
      (k ≤ scanDir b player dr dc r c fuel ↔
        ∀ i : Nat, 1 ≤ i → i ≤ k → matchAt b player r c dr dc i) := by
  intro fuel
  induction fuel with
  | zero =>
    intro k r c hk
    have hk0 : k = 0 := Nat.le_zero.mp hk
    subst hk0
    constructor
    · intro _ i h1 h2; exact absurd h2 (by omega)
    · intro _; exact Nat.zero_le _
  | succ n ih =>
    intro k r c hk
    cases k with
    | zero =>
      constructor
      · intro _ i h1 h2; exact absurd h2 (by omega)
      · intro _; exact Nat.zero_le _
    | succ k' =>
      simp only [scanDir]
      by_cases hstep : (0 ≤ r + dr ∧ r + dr < 6 ∧ 0 ≤ c + dc ∧ c + dc < 7) ∧
          getCell b (r + dr) (c + dc) = player
      · rw [if_pos hstep]
        have hiff := ih k' (r + dr) (c + dc) (by omega)
        constructor
        · intro hle i h1 h2
          have hk' : k' ≤ scanDir b player dr dc (r + dr) (c + dc) n := by omega
          have hall := hiff.mp hk'
          cases i with
          | zero => exact absurd h1 (by omega)
          | succ j =>
            by_cases hj : j = 0
            · subst hj
              exact (matchAt_one b player r c dr dc).mpr hstep
            · exact (matchAt_succ b player r c dr dc j).mpr (hall j (by omega) (by omega))
        · intro hall
          have hrec : ∀ i : Nat, 1 ≤ i → i ≤ k' → matchAt b player (r + dr) (c + dc) dr dc i := by
            intro i hi1 hik
            exact (matchAt_succ b player r c dr dc i).mp (hall (i + 1) (by omega) (by omega))
          have := hiff.mpr hrec
          omega
      · rw [if_neg hstep]
        constructor
        · intro h; exact absurd h (by omega)
        · intro hall
          exact absurd ((matchAt_one b player r c dr dc).mp (hall 1 (by omega) (by omega))) hstep

/-- C4: `check_victory` returns true iff, in some one of the four directions,
the anchor (counted once) plus the consecutive same-player in-bounds cells in
the positive sense plus those in the negative sense total at least `n`; a
first out-of-bounds or mismatched cell ends the count in that sense (the
`matchAt` prefixes demand consecutive in-bounds matches, so there is no
wraparound). -/
theorem check_victory_iff (b : Board) (r c player : Int) (n : Nat) :
    check_victory b (r, c) player n = true ↔
      ∃ d ∈ directions, ∃ k1 k2 : Nat, n ≤ 1 + k1 + k2 ∧
        (∀ i : Nat, 1 ≤ i → i ≤ k1 → matchAt b player r c d.1 d.2 i) ∧
        (∀ i : Nat, 1 ≤ i → i ≤ k2 → matchAt b player r c (-d.1) (-d.2) i) := by
  unfold check_victory
  simp only [List.any_eq_true, decide_eq_true_eq]
  constructor
  · rintro ⟨d, hd, hdec⟩
    refine ⟨d, hd, scanDir b player d.1 d.2 r c (n - 1),
      scanDir b player (-d.1) (-d.2) r c (n - 1), hdec, ?_, ?_⟩
    · exact (le_scanDir_iff b player d.1 d.2 (n - 1) _ r c
        (scanDir_le b player d.1 d.2 (n - 1) r c)).mp le_rfl
    · exact (le_scanDir_iff b player (-d.1) (-d.2) (n - 1) _ r c
        (scanDir_le b player (-d.1) (-d.2) (n - 1) r c)).mp le_rfl
  · rintro ⟨d, hd, k1, k2, hn, hm1, hm2⟩
    refine ⟨d, hd, ?_⟩
    have hs1 : min k1 (n - 1) ≤ scanDir b player d.1 d.2 r c (n - 1) :=
      (le_scanDir_iff b player d.1 d.2 (n - 1) (min k1 (n - 1)) r c
        (min_le_right _ _)).mpr
        (fun i h1 h2 => hm1 i h1 (le_trans h2 (min_le_left _ _)))
    have hs2 : min k2 (n - 1) ≤ scanDir b player (-d.1) (-d.2) r c (n - 1) :=
      (le_scanDir_iff b player (-d.1) (-d.2) (n - 1) (min k2 (n - 1)) r c
        (min_le_right _ _)).mpr
        (fun i h1 h2 => hm2 i h1 (le_trans h2 (min_le_left _ _)))
    omega

instance {ε α : Type _} [DecidableEq ε] [DecidableEq α] : DecidableEq (Except ε α)
  | Except.ok a, Except.ok b =>
    if h : a = b then isTrue (congrArg Except.ok h)
    else isFalse (fun hc => h (Except.ok.inj hc))
  | Except.ok _, Except.error _ => isFalse (fun hc => Except.noConfusion hc)
  | Except.error _, Except.ok _ => isFalse (fun hc => Except.noConfusion hc)
  | Except.error e, Except.error f =>
    if h : e = f then isTrue (congrArg Except.error h)
    else isFalse (fun hc => h (Except.error.inj hc))

/-- C5: `play` raises `InvalidMove` exactly when the move violates the rules
of the current phase (classic / removal-variant normal phase: column out of
`[0, 7)` or full; removal-variant event phase: target out of bounds or not
holding the opponent's piece), and a raising call leaves the caller's engine
state exactly as it was. -/
theorem play_invalid_iff (s : Gestionnaire) (m : Int × Int) :
    ((∃ e, ClassicGame.play s m = Except.error e) ↔
      (m.2 < 0 ∨ 7 ≤ m.2 ∨ getCell s.board 0 m.2 ≠ 0)) ∧
    ((∃ e, ClassicGame.play s m = Except.error e) → applyCaught ClassicGame.play s m = s) ∧
    ((∃ e, Variante_1.play s m = Except.error e) ↔
      (if s.event = false then m.2 < 0 ∨ 7 ≤ m.2 ∨ getCell s.board 0 m.2 ≠ 0
       else m.1 < 0 ∨ 6 ≤ m.1 ∨ m.2 < 0 ∨ 7 ≤ m.2 ∨
         getCell s.board m.1 m.2 ≠ otherPlayer s.current_player)) ∧
    ((∃ e, Variante_1.play s m = Except.error e) → applyCaught Variante_1.play s m = s) := by
  refine ⟨?_, ?_, ?_, ?_⟩
  · by_cases hc : m.2 < 0 ∨ 7 ≤ m.2 ∨ getCell s.board 0 m.2 ≠ 0
    · exact ⟨fun _ => hc, fun _ => ⟨_, by rw [ClassicGame.play, if_pos hc]⟩⟩
    · constructor
      · rintro ⟨e, he⟩
        rw [ClassicGame.play, if_neg hc] at he
        dsimp only at he
        split_ifs at he
      · intro h; exact absurd h hc
  · rintro ⟨e, he⟩
    simp only [applyCaught, he]
  · by_cases hev : s.event = false
    · rw [if_pos hev]
      by_cases hc : m.2 < 0 ∨ 7 ≤ m.2 ∨ getCell s.board 0 m.2 ≠ 0
      · exact ⟨fun _ => hc, fun _ => ⟨_, by rw [Variante_1.play, if_pos hev, if_pos hc]⟩⟩
      · constructor
        · rintro ⟨e, he⟩
          rw [Variante_1.play, if_pos hev, if_neg hc] at he
          dsimp only at he
          split_ifs at he
        · intro h; exact absurd h hc
    · rw [if_neg hev]
      by_cases hc : m.1 < 0 ∨ 6 ≤ m.1 ∨ m.2 < 0 ∨ 7 ≤ m.2 ∨
          getCell s.board m.1 m.2 ≠ otherPlayer s.current_player
      · exact ⟨fun _ => hc, fun _ => ⟨_, by rw [Variante_1.play, if_neg hev, if_pos hc]⟩⟩
      · constructor
        · rintro ⟨e, he⟩
          rw [Variante_1.play, if_neg hev, if_neg hc] at he
          dsimp only at he
          split_ifs at he
        · intro h; exact absurd h hc
  · rintro ⟨e, he⟩
    simp only [applyCaught, he]

/-- Witness for `play_invalid_iff`: column -1 is rejected by both variants
and the engine state survives unchanged. -/
theorem play_invalid_iff_witness :
    applyCaught ClassicGame.play (ClassicGame.init false 4 false) (0, -1) =
      ClassicGame.init false 4 false ∧
    applyCaught Variante_1.play (Variante_1.init false 4 false) (0, -1) =
      Variante_1.init false 4 false :=
  ⟨(play_invalid_iff (ClassicGame.init false 4 false) (0, -1)).2.1
      ((play_invalid_iff (ClassicGame.init false 4 false) (0, -1)).1.mpr (by decide)),
    (play_invalid_iff (Variante_1.init false 4 false) (0, -1)).2.2.2
      ((play_invalid_iff (Variante_1.init false 4 false) (0, -1)).2.2.1.mpr (by decide))⟩

/-- Counterexample to C6: the engine applies `play` regardless of the
victory flag. From a terminal state (victory already set) with an empty
board, a further call drops a piece and changes the board. -/
theorem terminal_state_play_mutates :
    ({ ClassicGame.init false 4 false with victory := true }).victory = true ∧
    (applyCaught ClassicGame.play
        { ClassicGame.init false 4 false with victory := true } (0, 3)).board ≠
      ({ ClassicGame.init false 4 false with victory := true }).board :=
  ⟨rfl, by decide⟩

/-- C6 (amended): the engine itself never consults the victory and draw
flags — `play` acts on a terminal state exactly as it would with the flags
cleared, so non-mutation after a terminal outcome is enforced only by the
caller (which stops feeding moves), not by the engine. -/
theorem play_ignores_terminal_flags (s : Gestionnaire) (v d : Bool) (m : Int × Int) :
    Except.map Gestionnaire.board (ClassicGame.play { s with victory := v, draw := d } m) =
      Except.map Gestionnaire.board (ClassicGame.play s m) ∧
    Except.map Gestionnaire.board (Variante_1.play { s with victory := v, draw := d } m) =
      Except.map Gestionnaire.board (Variante_1.play s m) := by
  constructor
  · simp only [ClassicGame.play]
    split_ifs <;> rfl
  · simp only [Variante_1.play]
    split_ifs <;> rfl

/-- C7: the AI-turn entry points are no-ops unless solo mode is active, the
bridge handle is present and the current player is the AI player (1); when
they act they serialize the board and feed the bridge's column through the
same `play` validation a human move gets (the classic variant propagates the
rejection, the removal variant catches it and leaves the state unchanged). -/
theorem ai_turn_guard_and_routing (bridge : AIBridge) (s : Gestionnaire) :
    (¬(s.mode_solo = true ∧ s.ai_engine = true ∧ s.current_player = 1) →
      ClassicGame.play_ai_turn bridge s = Except.ok s ∧
      Variante_1.play_ai_turn bridge s = Except.ok s) ∧
    (s.mode_solo = true → s.ai_engine = true → s.current_player = 1 →
      ClassicGame.play_ai_turn bridge s =
        ClassicGame.play s (0, bridge (flattenBoard s.board) s.difficulty 0) ∧
      (∀ e, Variante_1.play s (0, bridge (flattenBoard s.board) s.difficulty 1) =
          Except.error e →
        Variante_1.play_ai_turn bridge s = Except.ok s) ∧
      (∀ s1, Variante_1.play s (0, bridge (flattenBoard s.board) s.difficulty 1) =
          Except.ok s1 →
        s1.event = false → Variante_1.play_ai_turn bridge s = Except.ok s1)) := by
  constructor
  · intro hng
    constructor
    · unfold ClassicGame.play_ai_turn
      by_cases h1 : ¬s.mode_solo ∨ ¬s.ai_engine
      · rw [if_pos h1]
      · rw [if_neg h1]
        push_neg at h1
        have hne : s.current_player ≠ 1 := fun hcp => hng ⟨h1.1, h1.2, hcp⟩
        rw [if_pos hne]
    · unfold Variante_1.play_ai_turn
      have hcond : ¬s.mode_solo ∨ ¬s.ai_engine ∨ s.current_player ≠ 1 := by
        by_contra hcon
        push_neg at hcon
        exact hng ⟨hcon.1, hcon.2.1, hcon.2.2⟩
      rw [if_pos hcond]
  · intro hms hai hcp
    refine ⟨?_, ?_, ?_⟩
    · unfold ClassicGame.play_ai_turn
      rw [if_neg (by simp [hms, hai]), if_neg (by simp [hcp])]
    · intro e he
      unfold Variante_1.play_ai_turn
      rw [if_neg (by simp [hms, hai, hcp])]
      simp only [he]
    · intro s1 hs1 hev
      unfold Variante_1.play_ai_turn
      rw [if_neg (by simp [hms, hai, hcp])]
      simp only [hs1]
      rw [if_neg (by simp [hev])]

/-- Witness for `ai_turn_guard_and_routing`: an acting AI turn routes the
bridge's column 3 into `play`; a non-solo state is a no-op for both variants. -/
theorem ai_turn_guard_and_routing_witness :
    ClassicGame.play_ai_turn (fun _ _ _ => 3)
        { Gestionnaire.init true 4 true with current_player := 1 } =
      ClassicGame.play { Gestionnaire.init true 4 true with current_player := 1 } (0, 3) ∧
    ClassicGame.play_ai_turn (fun _ _ _ => 3) (Gestionnaire.init false 4 false) =
      Except.ok (Gestionnaire.init false 4 false) ∧
    Variante_1.play_ai_turn (fun _ _ _ => 3) (Gestionnaire.init false 4 false) =
      Except.ok (Gestionnaire.init false 4 false) :=
  ⟨((ai_turn_guard_and_routing (fun _ _ _ => 3)
        { Gestionnaire.init true 4 true with current_player := 1 }).2 rfl rfl rfl).1,
   ((ai_turn_guard_and_routing (fun _ _ _ => 3) (Gestionnaire.init false 4 false)).1
      (by decide)).1,
   ((ai_turn_guard_and_routing (fun _ _ _ => 3) (Gestionnaire.init false 4 false)).1
      (by decide)).2⟩

/-! ## Victim-selection order -/

/-- The spec's scan order: priority columns {3,2,4,1,5,0,6}, and inside a
column the rows from the bottom up. -/
def victimOrder : List (Int × Int) :=
  priority_cols.flatMap fun col => rowsDesc.map fun row => (row, col)

lemma findInCol_eq_find? (b : Board) (col opp : Int) (rs : List Int) :
    findInCol b col opp rs =
      (rs.map fun row => (row, col)).find? fun rc => decide (getCell b rc.1 rc.2 = opp) := by
  induction rs with
  | nil => rfl
  | cons r rs ih =>
    simp only [findInCol, List.map_cons]
    by_cases h : getCell b r col = opp
    · rw [if_pos h, List.find?_cons_of_pos _ (by simp [h])]
    · rw [if_neg h, List.find?_cons_of_neg _ (by simp [h]), ih]

lemma victimScan_eq_find? (b : Board) (opp : Int) (cs : List Int) :
    victimScan b opp cs =
      (cs.flatMap fun col => rowsDesc.map fun row => (row, col)).find?
        fun rc => decide (getCell b rc.1 rc.2 = opp) := by
  induction cs with
  | nil => rfl
  | cons col cs ih =>
    rw [List.flatMap_cons, List.find?_append, ← findInCol_eq_find?, ← ih]
    simp only [victimScan]
    cases hfc : findInCol b col opp rowsDesc with
    | some rc => rfl
    | none => rfl

lemma getCell_coe (b : Board) (r : Fin 6) (c : Fin 7) :
    getCell b ((r : Nat) : Int) ((c : Nat) : Int) = b r c := by
  have h : (0 : Int) ≤ ((r : Nat) : Int) ∧ (((r : Nat) : Int)) < 6 ∧
      (0 : Int) ≤ ((c : Nat) : Int) ∧ (((c : Nat) : Int)) < 7 := by
    have hr := r.isLt
    have hc := c.isLt
    refine ⟨by omega, by omega, by omega, by omega⟩
  unfold getCell
  rw [dif_pos h]
  have hr : (⟨(((r : Nat) : Int)).toNat, by omega⟩ : Fin 6) = r :=
    Fin.ext (show (((r : Nat) : Int)).toNat = (r : Nat) by omega)
  have hc : (⟨(((c : Nat) : Int)).toNat, by omega⟩ : Fin 7) = c :=
    Fin.ext (show (((c : Nat) : Int)).toNat = (c : Nat) by omega)
  rw [hr, hc]

/-- C8: `get_best_victim` equals the first match of a linear scan of the 42
cells in priority-column, bottom-to-top order; it returns `none` exactly when
no cell holds the opponent's value; and when the AI's drop opens the event
but no victim exists, the AI turn clears the event and passes the turn
without any removal. -/
theorem get_best_victim_spec (b : Board) (opp : Int) :
    Variante_1.get_best_victim b opp =
      victimOrder.find? (fun rc => decide (getCell b rc.1 rc.2 = opp)) ∧
    (Variante_1.get_best_victim b opp = none ↔ ∀ (r : Fin 6) (c : Fin 7), b r c ≠ opp) ∧
    (∀ (s s1 : Gestionnaire) (bridge : AIBridge),
      s.mode_solo = true → s.ai_engine = true → s.current_player = 1 →
      Variante_1.play s (0, bridge (flattenBoard s.board) s.difficulty 1) = Except.ok s1 →
      s1.event = true → Variante_1.get_best_victim s1.board (-1) = none →
      Variante_1.play_ai_turn bridge s =
        Except.ok { s1 with event := false, current_player := s1.current_player * (-1) }) := by
  have hfind : Variante_1.get_best_victim b opp =
      victimOrder.find? (fun rc => decide (getCell b rc.1 rc.2 = opp)) :=
    victimScan_eq_find? b opp priority_cols
  refine ⟨hfind, ?_, ?_⟩
  · rw [hfind, List.find?_eq_none]
    have hmem : ∀ (r : Fin 6) (c : Fin 7), (((r : Nat) : Int), ((c : Nat) : Int)) ∈ victimOrder := by
      decide
    have hbounds : ∀ rc ∈ victimOrder,
        0 ≤ rc.1 ∧ rc.1 < 6 ∧ 0 ≤ rc.2 ∧ rc.2 < 7 := by decide
    constructor
    · intro hall r c
      have := hall (((r : Nat) : Int), ((c : Nat) : Int)) (hmem r c)
      simp only [decide_eq_true_eq] at this
      rw [getCell_coe] at this
      exact this
    · intro hall rc hrc
      simp only [decide_eq_true_eq]
      have hbc := hbounds rc hrc
      unfold getCell
      rw [dif_pos hbc]
      exact hall _ _
  · intro s s1 bridge hms hai hcp hok hev hnone
    unfold Variante_1.play_ai_turn
    rw [if_neg (by simp [hms, hai, hcp])]
    simp only [hok]
    rw [if_pos hev]
    simp only [hnone]

/-- Concrete pre-AI-turn state for the `get_best_victim_spec` witness: the
AI (player 1) is about to drop into column 2 and align three while the human
has no piece on the board. -/
def c8WitnessState : Gestionnaire :=
  { Variante_1.init true 4 true with
    current_player := 1
    board := boardOfRows [[], [], [], [], [], [1, 1]] }

/-- The state after the AI's drop in the `get_best_victim_spec` witness:
the event is open but no opponent piece exists. -/
def c8WitnessAfterDrop : Gestionnaire :=
  { c8WitnessState with
    board := boardOfRows [[], [], [], [], [], [1, 1, 1]]
    event := true }

/-- Witness for `get_best_victim_spec`: with no opponent piece on the board,
the AI's event is cleared and the turn passes with no removal. -/
theorem get_best_victim_spec_witness :
    Variante_1.play_ai_turn (fun _ _ _ => 2) c8WitnessState =
      Except.ok { c8WitnessAfterDrop with
        event := false
        current_player := c8WitnessAfterDrop.current_player * (-1) } :=
  (get_best_victim_spec emptyBoard 0).2.2 c8WitnessState c8WitnessAfterDrop (fun _ _ _ => 2)
    rfl rfl rfl (by decide) rfl (by decide)

/-- Counterexample to C9: the mapping {2,4,6} lives in the controller, and
the engine constructor accepts and stores any caller-supplied raw depth —
here depth 7, which is outside the difficulty table, reaches the engine. -/
theorem engine_accepts_raw_depth :
    (Gestionnaire.init true 7 true).difficulty = 7 ∧ (7 : Int) ∉ niveaux :=
  ⟨rfl, by decide⟩

/-- C9 (amended): Easy/Medium/Hard (menu indices 0, 1, 2) map to search
depths 2, 4, 6 through the controller's constant table `niveaux`, and the
engine constructor stores the caller-supplied depth unchanged. -/
theorem difficulty_mapping_spec :
    difficulty_for 0 = 2 ∧ difficulty_for 1 = 4 ∧ difficulty_for 2 = 6 ∧
    ∀ (ms bok : Bool) (d : Int), (Gestionnaire.init ms d bok).difficulty = d :=
  ⟨rfl, rfl, rfl, fun _ _ _ => rfl⟩

/-! ## The gravity invariant -/

/-- Every column is bottom-packed: a non-empty cell has a non-empty cell
directly below it. -/
def gravityOK (b : Board) : Prop :=
  ∀ (r : Fin 5) (c : Fin 7), b ⟨r.val, by omega⟩ c ≠ 0 → b ⟨r.val + 1, by omega⟩ c ≠ 0

instance (b : Board) : Decidable (gravityOK b) :=
  inferInstanceAs (Decidable (∀ (r : Fin 5) (c : Fin 7),
    b ⟨r.val, by omega⟩ c ≠ 0 → b ⟨r.val + 1, by omega⟩ c ≠ 0))

lemma gravityOK_iff (b : Board) :
    gravityOK b ↔ ∀ r c : Int, 0 ≤ r → r < 5 → 0 ≤ c → c < 7 →
      getCell b r c ≠ 0 → getCell b (r + 1) c ≠ 0 := by
  constructor
  · intro hg r c hr0 hr5 hc0 hc7 hne
    unfold getCell at hne ⊢
    rw [dif_pos (show (0 : Int) ≤ r + 1 ∧ r + 1 < 6 ∧ 0 ≤ c ∧ c < 7 by omega)]
    rw [dif_pos (show (0 : Int) ≤ r ∧ r < 6 ∧ 0 ≤ c ∧ c < 7 by omega)] at hne
    have h2 := hg ⟨r.toNat, by omega⟩ ⟨c.toNat, by omega⟩ hne
    have hfin : (⟨(r + 1).toNat, by omega⟩ : Fin 6) = ⟨r.toNat + 1, by omega⟩ :=
      Fin.ext (show (r + 1).toNat = r.toNat + 1 by omega)
    rw [hfin]
    exact h2
  · intro hI r c hne
    have hrlt := r.isLt
    have hclt := c.isLt
    have h1 : getCell b ((r.val : Nat) : Int) ((c.val : Nat) : Int) ≠ 0 := by
      rw [show getCell b ((r.val : Nat) : Int) ((c.val : Nat) : Int) =
            b ⟨r.val, by omega⟩ c from getCell_coe b ⟨r.val, by omega⟩ c]
      exact hne
    have h2 := hI ((r.val : Nat) : Int) ((c.val : Nat) : Int)
      (by omega) (by omega) (by omega) (by omega) h1
    have hco : getCell b (((r.val : Nat) : Int) + 1) ((c.val : Nat) : Int) =
        b ⟨r.val + 1, by omega⟩ c := by
      have hcast : (((r.val : Nat) : Int) + 1) = (((r.val + 1 : Nat)) : Int) := by push_cast; ring
      exact (congrArg (fun x => getCell b x ((c.val : Nat) : Int)) hcast).trans
        (getCell_coe b ⟨r.val + 1, by omega⟩ c)
    rw [hco] at h2
    exact h2

lemma gravity_drop (b : Board) (rs col p : Int) (hg : gravityOK b)
    (hbt : 0 ≤ rs ∧ rs < 6) (hcol : 0 ≤ col ∧ col < 7)
    (hempty : getCell b rs col = 0)
    (hbelow : ∀ r : Int, rs < r → r < 6 → getCell b r col ≠ 0) :
    gravityOK (setCell b rs col p) := by
  rw [gravityOK_iff] at hg ⊢
  intro r c hr0 hr5 hc0 hc7 hne
  by_cases hc : c = col
  · subst hc
    by_cases h1 : r = rs
    · subst h1
      rw [getCell_setCell_ne _ _ (by omega)]
      exact hbelow (r + 1) (by omega) (by omega)
    · by_cases h2 : r + 1 = rs
      · rw [getCell_setCell_ne _ _ (by omega)] at hne
        have hup := hg r c hr0 hr5 hc0 hc7 hne
        rw [h2] at hup
        exact absurd hempty hup
      · rw [getCell_setCell_ne _ _ (by omega)] at hne
        rw [getCell_setCell_ne _ _ (by omega)]
        exact hg r c hr0 hr5 hc0 hc7 hne
  · rw [getCell_setCell_ne _ _ (by tauto)] at hne
    rw [getCell_setCell_ne _ _ (by tauto)]
    exact hg r c hr0 hr5 hc0 hc7 hne

lemma gravity_collapse (b : Board) (row col : Int) (hg : gravityOK b)
    (hrow : 0 ≤ row ∧ row < 6) (hcol : 0 ≤ col ∧ col < 7) :
    gravityOK (remove_and_collapse b row col) := by
  have hB := remove_and_collapse_getCell b row col hrow hcol
  rw [gravityOK_iff] at hg ⊢
  intro r c hr0 hr5 hc0 hc7 hne
  rw [hB] at hne
  rw [hB]
  by_cases hc : c = col
  · rw [if_pos hc] at hne ⊢
    by_cases hz : r = 0
    · rw [if_pos hz] at hne; exact absurd rfl hne
    · rw [if_neg hz] at hne
      rw [if_neg (show ¬(r + 1 = 0) by omega)]
      by_cases hle : r ≤ row
      · rw [if_pos hle] at hne
        have e1 := hg (r - 1) c (by omega) (by omega) hc0 hc7 hne
        have h' : r - 1 + 1 = r := by ring
        rw [h'] at e1
        by_cases hle1 : r + 1 ≤ row
        · rw [if_pos hle1]
          have h'' : r + 1 - 1 = r := by ring
          rw [h'']
          exact e1
        · rw [if_neg hle1]
          exact hg r c (by omega) (by omega) hc0 hc7 e1
      · rw [if_neg hle] at hne
        rw [if_neg (by omega)]
        exact hg r c hr0 hr5 hc0 hc7 hne
  · rw [if_neg hc] at hne ⊢
    exact hg r c hr0 hr5 hc0 hc7 hne

/-- C10: every accepted move of either variant preserves the gravity
invariant — a drop fills the lowest empty row, and a removal's collapse
shifts the cells above the cleared cell down by one, so no piece ever
floats above an empty cell. -/
theorem gravity_invariant_preserved (s : Gestionnaire) (m : Int × Int) (s' : Gestionnaire)
    (hg : gravityOK s.board) :
    (ClassicGame.play s m = Except.ok s' → gravityOK s'.board) ∧
    (Variante_1.play s m = Except.ok s' → gravityOK s'.board) := by
  constructor
  · intro hok
    unfold ClassicGame.play at hok
    by_cases hc : m.2 < 0 ∨ 7 ≤ m.2 ∨ getCell s.board 0 m.2 ≠ 0
    · rw [if_pos hc] at hok; cases hok
    · rw [if_neg hc] at hok
      push_neg at hc
      obtain ⟨rs, heq, h0, h6, hemp, hbel⟩ := dropLoop_spec s.board m.2 s.current_player hc.2.2
      rw [heq] at hok
      dsimp only at hok
      split_ifs at hok <;>
        · have hinj := Except.ok.inj hok
          subst hinj
          exact gravity_drop s.board rs m.2 s.current_player hg ⟨h0, h6⟩
            ⟨hc.1, hc.2.1⟩ hemp hbel
  · intro hok
    unfold Variante_1.play at hok
    by_cases hev : s.event = false
    · rw [if_pos hev] at hok
      by_cases hc : m.2 < 0 ∨ 7 ≤ m.2 ∨ getCell s.board 0 m.2 ≠ 0
      · rw [if_pos hc] at hok; cases hok
      · rw [if_neg hc] at hok
        push_neg at hc
        obtain ⟨rs, heq, h0, h6, hemp, hbel⟩ := dropLoop_spec s.board m.2 s.current_player hc.2.2
        rw [heq] at hok
        dsimp only at hok
        split_ifs at hok <;>
          · have hinj := Except.ok.inj hok
            subst hinj
            exact gravity_drop s.board rs m.2 s.current_player hg ⟨h0, h6⟩
              ⟨hc.1, hc.2.1⟩ hemp hbel
    · rw [if_neg hev] at hok
      by_cases hval : m.1 < 0 ∨ 6 ≤ m.1 ∨ m.2 < 0 ∨ 7 ≤ m.2 ∨
          getCell s.board m.1 m.2 ≠ otherPlayer s.current_player
      · rw [if_pos hval] at hok; cases hok
      · rw [if_neg hval] at hok
        push_neg at hval
        dsimp only at hok
        split_ifs at hok <;>
          · have hinj := Except.ok.inj hok
            subst hinj
            exact gravity_collapse s.board m.1 m.2 hg ⟨hval.1, hval.2.1⟩
              ⟨hval.2.2.1, hval.2.2.2.1⟩

/-- The state reached by dropping in column 3 of a fresh classic game, for
the `gravity_invariant_preserved` witness. -/
def c10After : Gestionnaire :=
  { Gestionnaire.init false 4 false with
    board := boardOfRows [[], [], [], [], [], [0, 0, 0, -1]]
    current_player := 1 }

/-- Witness for `gravity_invariant_preserved`: the drop in column 3 of the
empty board lands on the bottom row and keeps the column bottom-packed. -/
theorem gravity_invariant_preserved_witness : gravityOK c10After.board :=
  (gravity_invariant_preserved (ClassicGame.init false 4 false) (0, 3) c10After
      (by decide)).1 (by decide)
